import Mathlib

/-!
Shallow embedding of the Gantt data-normalization pipeline and layout engine
(`gantt_generic.py`): date parsing, column resolution, row normalization,
sorting, color assignment, SVG geometry, and the text-escaping used by the
renderers.  Machine floats of the source are modelled by exact rationals;
pandas timestamps are modelled by calendar dates and their civil day numbers.
-/

namespace Gantt

/-! ## Character and string helpers -/

/-- Value of a decimal digit character. -/
def digitVal (c : Char) : Nat := c.toNat - 48

/-- Numeric value of a digit string, most significant first. -/
def digitsVal (l : List Char) : Nat := l.foldl (fun a c => a * 10 + digitVal c) 0

/-- All characters are decimal digits. -/
def allDigits (l : List Char) : Bool := l.all Char.isDigit

/-- Python `str.strip()`: drop leading and trailing whitespace. -/
def stripChars (l : List Char) : List Char :=
  ((l.dropWhile Char.isWhitespace).reverse.dropWhile Char.isWhitespace).reverse

/-- `str.strip()` lifted to `String`. -/
def strip (s : String) : String := String.mk (stripChars s.data)

/-- `str.lower()` modelled as ASCII case folding, which agrees with Python
on the ASCII and already-lowercase data exercised here. -/
def lowerChar (c : Char) : Char :=
  if 65 ≤ c.toNat && c.toNat ≤ 90 then Char.ofNat (c.toNat + 32) else c

/-- `str.lower()` lifted to `String`. -/
def lower (s : String) : String := String.mk (s.data.map lowerChar)

/-- Lexicographic comparison of character lists by code point — Python's
`<` on strings. -/
def charsLt : List Char → List Char → Bool
  | [], [] => false
  | [], _ :: _ => true
  | _ :: _, [] => false
  | a :: as, b :: bs =>
    decide (a.toNat < b.toNat) || (decide (a = b) && charsLt as bs)

/-- Python string `<`. -/
def strLt (a b : String) : Bool := charsLt a.data b.data

instance {ε α : Type} [DecidableEq ε] [DecidableEq α] : DecidableEq (Except ε α)
  | .error a, .error b =>
    if h : a = b then .isTrue (by rw [h]) else .isFalse (fun hc => h (Except.error.inj hc))
  | .error _, .ok _ => .isFalse (fun hc => Except.noConfusion hc)
  | .ok _, .error _ => .isFalse (fun hc => Except.noConfusion hc)
  | .ok a, .ok b =>
    if h : a = b then .isTrue (by rw [h]) else .isFalse (fun hc => h (Except.ok.inj hc))

/-- Split a character list at every occurrence of `sep`
(Python `str.split(sep)` for a one-character separator). -/
def splitOnChar (sep : Char) : List Char → List (List Char)
  | [] => [[]]
  | c :: cs =>
    if c = sep then [] :: splitOnChar sep cs
    else
      match splitOnChar sep cs with
      | [] => [[c]]
      | h :: t => (c :: h) :: t

/-- `pre` is a leading segment of the second list. -/
def leadsList : List Char → List Char → Bool
  | [], _ => true
  | _ :: _, [] => false
  | a :: as, b :: bs => a = b && leadsList as bs

/-- `needle` occurs contiguously inside `hay`. -/
def containsList (needle : List Char) : List Char → Bool
  | [] => needle.isEmpty
  | c :: cs => leadsList needle (c :: cs) || containsList needle cs

/-- Substring test (`needle in hay` on Python strings). -/
def containsStr (hay needle : String) : Bool := containsList needle.data hay.data

/-! ## Calendar dates

`datetime` values of the source are date-only in this pipeline (parsed dates
are midnight-valued); we model them as calendar dates. -/

/-- A calendar date. -/
structure Date where
  y : Nat
  m : Nat
  d : Nat
deriving DecidableEq

/-- Gregorian leap year. -/
def isLeap (y : Nat) : Bool := y % 4 = 0 && (y % 100 ≠ 0 || y % 400 = 0)

/-- Days in a month of a given year. -/
def daysInMonth (y m : Nat) : Nat :=
  if m = 2 then (if isLeap y then 29 else 28)
  else if m = 4 || m = 6 || m = 9 || m = 11 then 30
  else 31

/-- The date is a real calendar date representable by `datetime`
(year 1..9999, valid month and day). -/
def validDate (y m d : Nat) : Prop :=
  1 ≤ y ∧ y ≤ 9999 ∧ 1 ≤ m ∧ m ≤ 12 ∧ 1 ≤ d ∧ d ≤ daysInMonth y m

instance (y m d : Nat) : Decidable (validDate y m d) := by
  unfold validDate; infer_instance

/-- Civil day number (days since 1970-01-01, Hinnant's days-from-civil
formula restricted to years ≥ 1).  Timestamp comparison and timedelta
`.days` of the source are comparison and subtraction of this number. -/
def dayNumber (dt : Date) : Int :=
  let y : Int := if dt.m ≤ 2 then (dt.y : Int) - 1 else (dt.y : Int)
  let era : Int := y / 400
  let yoe : Int := y - era * 400
  let mp : Int := if dt.m ≤ 2 then (dt.m : Int) + 9 else (dt.m : Int) - 3
  let doy : Int := (153 * mp + 2) / 5 + (dt.d : Int) - 1
  let doe : Int := yoe * 365 + yoe / 4 - yoe / 100 + doy
  era * 146097 + doe - 719468

/-! ## Date parsing (`parse_date`, lines 30-38)

`datetime.strptime` with the five patterns `%Y-%m-%d`, `%d/%m/%Y`,
`%d-%m-%Y`, `%Y/%m/%d`, `%d.%m.%Y`.  For these separator-based patterns a
full-string regex match forces every numeric field to consume one entire
digit run, so matching is equivalent to: split on the separator, require
three all-digit parts of the right lengths (`%Y` exactly four digits, `%d`
and `%m` one or two), check the numeric ranges, and let `datetime`
validate the day against the month (a `ValueError` falls through to the
next pattern, like the source's bare `except`). -/

/-- A `%d` or `%m` field: one or two digits with value in `[1, hi]`. -/
def fieldDM (p : List Char) (hi : Nat) : Option Nat :=
  if (p.length = 1 || p.length = 2) && allDigits p
      && decide (1 ≤ digitsVal p) && decide (digitsVal p ≤ hi)
  then some (digitsVal p) else none

/-- A `%Y` field: exactly four digits; `datetime` requires year ≥ 1. -/
def fieldY (p : List Char) : Option Nat :=
  if p.length = 4 && allDigits p && decide (1 ≤ digitsVal p)
  then some (digitsVal p) else none

/-- `datetime(y, m, d)` construction: validates the day against the month. -/
def mkValidDate (y m d : Nat) : Option Date :=
  if d ≤ daysInMonth y m then some ⟨y, m, d⟩ else none

/-- Field order of a pattern: year first or day first. -/
inductive FmtOrder where
  | ymd
  | dmy
deriving DecidableEq

/-- Attempt one `strptime` pattern on a (stripped) character list. -/
def tryFormat (sep : Char) (ord : FmtOrder) (s : List Char) : Option Date :=
  match splitOnChar sep s with
  | [p1, p2, p3] =>
    match ord with
    | .ymd =>
      match fieldY p1, fieldDM p2 12, fieldDM p3 31 with
      | some y, some m, some d => mkValidDate y m d
      | _, _, _ => none
    | .dmy =>
      match fieldDM p1 31, fieldDM p2 12, fieldY p3 with
      | some d, some m, some y => mkValidDate y m d
      | _, _, _ => none
  | _ => none

/-- The source's format list, in order (line 35). -/
def formats : List (Char × FmtOrder) :=
  [('-', .ymd), ('/', .dmy), ('-', .dmy), ('/', .ymd), ('.', .dmy)]

/-- A raw cell fed to `parse_date`: missing (`NaN`), an already-typed
date/time instant, free text, or any other type. -/
inductive DateVal where
  | missing
  | instant (d : Date)
  | text (s : String)
  | other
deriving DecidableEq

/-- `parse_date` (lines 30-38): `NaN` ↦ none, instants pass through, text is
stripped and matched against the patterns in order (first success wins),
anything else is unparseable. -/
def parse_date : DateVal → Option Date
  | .missing => none
  | .instant d => some d
  | .text s => formats.findSome? (fun p => tryFormat p.1 p.2 (stripChars s.data))
  | .other => none

/-! ## Canonical renderings of dates (`strftime`) -/

/-- Two-digit zero-padded rendering (`%d`, `%m` for values < 100). -/
def render2 (n : Nat) : List Char := [Char.ofNat (48 + n / 10), Char.ofNat (48 + n % 10)]

/-- Four-digit zero-padded rendering (`%Y` for values < 10000). -/
def render4 (n : Nat) : List Char :=
  [Char.ofNat (48 + n / 1000), Char.ofNat (48 + n / 100 % 10),
   Char.ofNat (48 + n / 10 % 10), Char.ofNat (48 + n % 10)]

/-- `%Y-%m-%d` rendering. -/
def isoStr (y m d : Nat) : String :=
  String.mk (render4 y ++ '-' :: render2 m ++ '-' :: render2 d)

/-- `%d/%m/%Y` rendering. -/
def dmySlashStr (y m d : Nat) : String :=
  String.mk (render2 d ++ '/' :: render2 m ++ '/' :: render4 y)

/-- `%d-%m-%Y` rendering. -/
def dmyDashStr (y m d : Nat) : String :=
  String.mk (render2 d ++ '-' :: render2 m ++ '-' :: render4 y)

/-- `%Y/%m/%d` rendering. -/
def ymdSlashStr (y m d : Nat) : String :=
  String.mk (render4 y ++ '/' :: render2 m ++ '/' :: render2 d)

/-- `%d.%m.%Y` rendering. -/
def dmyDotStr (y m d : Nat) : String :=
  String.mk (render2 d ++ '.' :: render2 m ++ '.' :: render4 y)

/-- `%Y.%m.%d` rendering (the format the spec lists but the source lacks). -/
def ymdDotStr (y m d : Nat) : String :=
  String.mk (render4 y ++ '.' :: render2 m ++ '.' :: render2 d)

/-! ## Column resolution (`find_column`, lines 41-45)

`cols = {c.lower().strip(): c for c in df.columns}` builds a dict keyed by
the lower-cased, stripped header, a later duplicate key overwriting an
earlier one; each synonym `n` is then looked up under `n.lower()` (the
synonym is lower-cased but not stripped), first synonym found wins.
`str.lower()` is modelled by ASCII case folding, which agrees with Python
on the data in play. -/

/-- Dict lookup in `{c.lower().strip(): c for c in headers}`: the last
header whose normalized form equals `k`. -/
def dictFind (headers : List String) (k : String) : Option String :=
  headers.foldl (fun acc c => if strip (lower c) = k then some c else acc) none

/-- `find_column` (lines 41-45). -/
def find_column (headers : List String) (names : List String) : Option String :=
  names.findSome? (fun n => dictFind headers (lower n))

/-- Synonyms for the category column (line 52). -/
def catSyns : List String := ["catégorie", "categorie", "category", "groupe", "group"]

/-- Synonyms for the task column (line 53). -/
def tacheSyns : List String := ["tâche", "tache", "task", "nom", "name", "activité"]

/-- Synonyms for the start column (line 54). -/
def debutSyns : List String := ["début", "debut", "start", "date_debut", "start_date"]

/-- Synonyms for the end column (line 55). -/
def finSyns : List String := ["fin", "end", "date_fin", "end_date", "échéance"]

/-- A successful column mapping: one original header per logical field. -/
structure Mapping where
  categorie : String
  tache : String
  debut : String
  fin : String
deriving DecidableEq

/-- The error text of lines 57-58, given which logical fields are missing:
`"Colonnes manquantes: "` followed by the missing logical field names in
dict insertion order. -/
def missingMsg (bc bt bd bf : Bool) : String :=
  "Colonnes manquantes: " ++ String.intercalate (", ")
    ((if bc then ["categorie"] else []) ++ (if bt then ["tache"] else [])
      ++ (if bd then ["debut"] else []) ++ (if bf then ["fin"] else []))

/-- Column resolution step of `load_data` (lines 51-58): resolve the four
logical fields; if any is missing return the missing-columns message. -/
def resolveColumns (headers : List String) : Except String Mapping :=
  match find_column headers catSyns, find_column headers tacheSyns,
      find_column headers debutSyns, find_column headers finSyns with
  | some c, some t, some d, some f => .ok ⟨c, t, d, f⟩
  | mc, mt, md, mf => .error (missingMsg mc.isNone mt.isNone md.isNone mf.isNone)

/-! ## Row normalization (`load_data`, lines 60-70) -/

/-- One raw input row, already projected onto the four resolved columns.
`none` in a text cell models a missing (`NaN`) cell; `astype(str)` renders
it as the placeholder string `"nan"`. -/
structure RawRow where
  categorie : Option String
  tache : Option String
  debut : DateVal
  fin : DateVal

/-- `astype(str).str.strip()` of a cell (lines 61-62). -/
def cellStr : Option String → String
  | none => "nan"
  | some s => strip s

/-- A canonical task row. -/
structure Task where
  categorie : String
  tache : String
  debut : Date
  fin : Date
  duree_jours : Int
deriving DecidableEq

/-- Per-row normalization (lines 60-68): parse both dates (row dropped if
either is unparseable, line 66), drop rows whose task name is empty or the
`"nan"` placeholder (line 67), and derive
`duree_jours = (fin - debut).days + 1` (line 68). -/
def rowTask (r : RawRow) : Option Task :=
  match parse_date r.debut, parse_date r.fin with
  | some db, some fn =>
    if cellStr r.tache = "" ∨ cellStr r.tache = "nan" then none
    else some ⟨cellStr r.categorie, cellStr r.tache, db, fn,
               dayNumber fn - dayNumber db + 1⟩
  | _, _ => none

/-- Sort key comparison of `sort_values(['categorie', 'debut'])`:
non-strict lexicographic order on (category string, start day), category
strings compared as Python compares them (`strLt`). -/
def taskLE (a b : Task) : Bool :=
  strLt a.categorie b.categorie
    || (decide (a.categorie = b.categorie)
        && decide (dayNumber a.debut ≤ dayNumber b.debut))

/-- `sort_values(['categorie', 'debut'])` (line 69): pandas sorts on
several columns with `np.lexsort`, a stable sort; `mergeSort` is the same
stable sort. -/
def sortTasks (l : List Task) : List Task := l.mergeSort taskLE

/-- Rows-to-TaskSet step of `load_data` (lines 60-70): normalize each row,
sort, and report `"Aucune donnée valide"` when nothing survives. -/
def load_rows (rows : List RawRow) : Except String (List Task) :=
  if (sortTasks (rows.filterMap rowTask)).isEmpty then .error ("Aucune donnée valide")
  else .ok (sortTasks (rows.filterMap rowTask))

/-- `load_data` (lines 48-72) over an already-decoded table: resolve the
columns, then normalize the rows; a resolution failure produces no tasks. -/
def load_data (headers : List String) (rows : List RawRow) :
    Except String (List Task) :=
  match resolveColumns headers with
  | .error e => .error e
  | .ok _ => load_rows rows

/-! ## Color assignment (`colors`, lines 75-77; `generate_svg`, lines 99-100) -/

/-- The fixed 10-color palette (line 76). -/
def palette : List String :=
  ["#4e79a7", "#f28e2b", "#e15759", "#76b7b2", "#59a14f",
   "#edc948", "#b07aa1", "#ff9da7", "#9c755f", "#bab0ac"]

/-- `colors(n)` (line 77): `palette[i % len(palette)]` for `i < n`. -/
def colors (n : Nat) : List String :=
  (List.range n).map (fun i => palette.get ⟨i % palette.length, Nat.mod_lt i (by decide)⟩)

/-- First-seen deduplication with an accumulator of already-seen values. -/
def uniqueAux (seen : List String) : List String → List String
  | [] => []
  | c :: cs => if c ∈ seen then uniqueAux seen cs else c :: uniqueAux (c :: seen) cs

/-- `Series.unique()`: distinct values in first-seen order. -/
def uniqueList (l : List String) : List String := uniqueAux [] l

/-- `data['categorie'].unique()` (line 99). -/
def svgCats (data : List Task) : List String := uniqueList (data.map Task.categorie)

/-- `cmap = dict(zip(cats, colors(len(cats))))` (line 100), as an
association list (keys are distinct, so dict and association list agree). -/
def svgCmap (data : List Task) : List (String × String) :=
  (svgCats data).zip (colors (svgCats data).length)

/-! ## SVG layout geometry (`generate_svg`, lines 83-148)

Python floats are modelled by exact rationals; the claims under study are
inequalities that hold in either arithmetic. -/

/-- Minimum of the start day numbers (`data['debut'].min()`, line 96). -/
def minDebut : List Task → Int
  | [] => 0
  | t :: ts => ts.foldl (fun a r => min a (dayNumber r.debut)) (dayNumber t.debut)

/-- Maximum of the end day numbers (`data['fin'].max()`, line 96). -/
def maxFin : List Task → Int
  | [] => 0
  | t :: ts => ts.foldl (fun a r => max a (dayNumber r.fin)) (dayNumber t.fin)

/-- `dr = max(1, (maxd - mind).days)` (line 97). -/
def svgDr (data : List Task) : Int := max 1 (maxFin data - minDebut data)

/-- Longest task-name length (`data['tache'].str.len().max()`, line 86). -/
def maxTacheLen : List Task → Nat
  | [] => 0
  | t :: ts => ts.foldl (fun a r => max a r.tache.length) t.tache.length

/-- Left margin `ml = min(500, max(250, maxlen * 8 + 50))` (line 86). -/
def mlMargin (data : List Task) : Nat := min 500 (max 250 (maxTacheLen data * 8 + 50))

/-- Bar start offset in days (`so`, line 122). -/
def barSo (mind : Int) (r : Task) : Int := dayNumber r.debut - mind

/-- Bar duration in days (`du`, line 123). -/
def barDu (r : Task) : Int := dayNumber r.fin - dayNumber r.debut + 1

/-- Bar x coordinate `bx = ml + (so / dr) * cw` (line 124). -/
def barX (ml : Nat) (mind dr : Int) (r : Task) : ℚ :=
  (ml : ℚ) + ((barSo mind r : ℚ) / (dr : ℚ)) * 800

/-- Bar width `bw = max(8, (du / dr) * cw)` (line 125). -/
def barWidth (dr : Int) (r : Task) : ℚ := max 8 (((barDu r : ℚ)) / (dr : ℚ) * 800)

/-- The observable layout outcome of `generate_svg`: either the fixed
zero-task placeholder markup (line 84) or the computed bar geometry. -/
inductive SvgOut where
  | placeholder (s : String)
  | chart (dr : Int) (bars : List (ℚ × ℚ))
deriving DecidableEq

/-- Geometry skeleton of `generate_svg` (lines 83-148): the zero-task
placeholder, the day span `dr`, and each task's bar position and width. -/
def generate_svg_geom (data : List Task) : SvgOut :=
  match data with
  | [] => .placeholder ("<svg><text>Aucune donnée</text></svg>")
  | _ :: _ =>
    let mind := minDebut data
    let dr := svgDr data
    let ml := mlMargin data
    .chart dr (data.map (fun r => (barX ml mind dr r, barWidth dr r)))

/-! ## Renderer text embedding (`esc`, line 80; `gen_pptx`, line 229) -/

/-- `html.escape(str(t))` (line 80): five sequential replacements, `&`
first — equivalently a character-wise map.  Character codes: 38 `&`,
60 `<`, 62 `>`, 34 double quote, 39 apostrophe. -/
def escChar (c : Char) : List Char :=
  if c.toNat = 38 then ("&amp;").data
  else if c.toNat = 60 then ("&lt;").data
  else if c.toNat = 62 then ("&gt;").data
  else if c.toNat = 34 then ("&quot;").data
  else if c.toNat = 39 then ("&#x27;").data
  else [c]

/-- `esc` (line 80). -/
def esc (s : String) : String := String.mk (s.data.flatMap escChar)

/-- No raw markup-significant character remains: neither `<` nor `>` nor a
double quote nor an apostrophe (codes 60, 62, 34, 39). -/
def htmlSafe (s : String) : Bool :=
  s.data.all (fun c => c.toNat ≠ 60 && c.toNat ≠ 62 && c.toNat ≠ 34 && c.toNat ≠ 39)

/-- `strftime('%d/%m/%Y')`. -/
def strftimeDMY (dt : Date) : String := dmySlashStr dt.y dt.m dt.d

/-- Tooltip text (line 135): name, category, date range, duration. -/
def tipText (r : Task) : String :=
  r.tache ++ "\n" ++ r.categorie ++ "\n" ++ strftimeDMY r.debut ++ " → "
    ++ strftimeDMY r.fin ++ "\n" ++ toString r.duree_jours ++ "j"

/-- The user-supplied text fields emitted by `generate_svg`, each at its
`esc(...)` call site: the title (line 105), each task's name (line 132),
category (line 133) and tooltip (line 136), and each legend label
(line 145). -/
def svgUserTexts (title : String) (data : List Task) : List String :=
  esc title
    :: data.flatMap (fun r => [esc r.tache, esc r.categorie, esc (tipText r)])
    ++ (svgCats data).map esc

/-- `gen_pptx` task-name sanitization (line 229):
`r['tache'][:35].replace('"', "'").replace('\\', '')` — truncate to 35
characters, turn double quotes (34) into apostrophes (39), delete
backslashes (92). -/
def pptxTaskName (s : String) : String :=
  String.mk (((s.data.take 35).map
      (fun c => if c.toNat = 34 then Char.ofNat 39 else c)).filter
    (fun c => c.toNat ≠ 92))

/-- The character list between the quotes of a JavaScript double-quoted
string literal is well-formed: no raw double quote or line terminator, and
every backslash starts a two-character escape whose second character is
not a line terminator. -/
def jsLitOk : List Char → Bool
  | [] => true
  | [c] =>
    if c.toNat = 92 then false
    else c.toNat ≠ 34 && c.toNat ≠ 10 && c.toNat ≠ 13
  | c :: d :: ds =>
    if c.toNat = 92 then (d.toNat ≠ 10 && d.toNat ≠ 13) && jsLitOk ds
    else (c.toNat ≠ 34 && c.toNat ≠ 10 && c.toNat ≠ 13) && jsLitOk (d :: ds)

/-- Hexadecimal digit character (lower case, as CPython emits). -/
def hexDigit (n : Nat) : Char :=
  if n < 10 then Char.ofNat (48 + n) else Char.ofNat (87 + n)

/-- `\uXXXX` escape for a code unit `v < 65536`. -/
def uEscape (v : Nat) : List Char :=
  [Char.ofNat 92, 'u', hexDigit (v / 4096 % 16), hexDigit (v / 256 % 16),
   hexDigit (v / 16 % 16), hexDigit (v % 16)]

/-- `json.dumps` escaping of one character (CPython, `ensure_ascii=True`):
quote and backslash get a backslash escape, the named control escapes are
used for 8, 9, 10, 12, 13, every other character outside printable ASCII
32..126 becomes `\uXXXX` (a surrogate pair above 65535), and printable
ASCII passes through. -/
def jsonEscChar (c : Char) : List Char :=
  if c.toNat = 34 then [Char.ofNat 92, Char.ofNat 34]
  else if c.toNat = 92 then [Char.ofNat 92, Char.ofNat 92]
  else if c.toNat = 8 then [Char.ofNat 92, 'b']
  else if c.toNat = 9 then [Char.ofNat 92, 't']
  else if c.toNat = 10 then [Char.ofNat 92, 'n']
  else if c.toNat = 12 then [Char.ofNat 92, 'f']
  else if c.toNat = 13 then [Char.ofNat 92, 'r']
  else if c.toNat < 32 then uEscape c.toNat
  else if c.toNat ≤ 126 then [c]
  else if c.toNat < 65536 then uEscape c.toNat
  else uEscape (55296 + (c.toNat - 65536) / 1024) ++ uEscape (56320 + (c.toNat - 65536) % 1024)

/-- The body (between the added quotes) of `json.dumps(s)`. -/
def jsonBody (s : String) : List Char := s.data.flatMap jsonEscChar

/-! ## Helper lemmas -/

theorem data_mk (l : List Char) : (String.mk l).data = l := rfl

theorem rowTask_eq_some {r : RawRow} {t : Task} (h : rowTask r = some t) :
    ∃ db fn, parse_date r.debut = some db ∧ parse_date r.fin = some fn ∧
      t = ⟨cellStr r.categorie, cellStr r.tache, db, fn,
           dayNumber fn - dayNumber db + 1⟩ ∧
      cellStr r.tache ≠ "" ∧ cellStr r.tache ≠ "nan" := by
  unfold rowTask at h
  split at h
  case _ db fn hdb hfn =>
    split at h
    · exact absurd h (by simp)
    · rename_i hne
      push_neg at hne
      exact ⟨db, fn, hdb, hfn, (Option.some.injEq _ _ ▸ h).symm, hne.1, hne.2⟩
  case _ => exact absurd h (by simp)

theorem load_rows_ok {rows : List RawRow} {ts : List Task}
    (h : load_rows rows = .ok ts) : ts = sortTasks (rows.filterMap rowTask) := by
  unfold load_rows at h
  split at h
  · exact absurd h (by simp)
  · exact (Except.ok.inj h).symm

theorem load_rows_singleton {r : RawRow} {t : Task} (h : rowTask r = some t) :
    load_rows [r] = .ok [t] := by
  unfold load_rows sortTasks
  simp [List.filterMap_cons, h]

/-! ## C1: duration invariant and the handling of inverted date ranges -/

/-- C1 counterexample: a single row whose end date (2025-01-01) is strictly
before its start date (2025-01-02) is not rejected by `load_data` and does
not produce the "no valid rows" condition: it yields a one-task TaskSet
whose `duree_jours` is `0 < 1`. -/
theorem c1_counterexample :
    load_rows [⟨some "Dev", some "Code", .text "2025-01-02", .text "2025-01-01"⟩]
      = .ok [⟨"Dev", "Code", ⟨2025, 1, 2⟩, ⟨2025, 1, 1⟩, 0⟩] := by
  exact load_rows_singleton (by decide)

/-- C1 (amended): every task in a normalized TaskSet satisfies
`duree_jours = (fin - debut) in days + 1`, but rows with `end < start` are
not rejected: such a row is kept, its task has `duree_jours ≤ 0`, and if it
is the only row the result is still a one-task TaskSet rather than the
"no valid rows" condition. -/
theorem c1_duration_policy :
    (∀ rows ts, load_rows rows = .ok ts →
       ∀ t ∈ ts, t.duree_jours = dayNumber t.fin - dayNumber t.debut + 1) ∧
    (∀ r t, rowTask r = some t → dayNumber t.fin < dayNumber t.debut →
       t.duree_jours ≤ 0 ∧ load_rows [r] = .ok [t]) := by
  constructor
  · intro rows ts h t ht
    rw [load_rows_ok h] at ht
    unfold sortTasks at ht
    rw [List.mem_mergeSort] at ht
    obtain ⟨r, -, hr⟩ := List.mem_filterMap.mp ht
    obtain ⟨db, fn, -, -, rfl, -, -⟩ := rowTask_eq_some hr
    rfl
  · intro r t hr hlt
    obtain ⟨db, fn, -, -, rfl, -, -⟩ := rowTask_eq_some hr
    refine ⟨?_, load_rows_singleton hr⟩
    simp only at hlt ⊢
    omega

/-- C1 witness: the amended theorem applied to the concrete inverted row of
the counterexample. -/
theorem c1_duration_policy_witness :
    (⟨"Dev", "Code", ⟨2025, 1, 2⟩, ⟨2025, 1, 1⟩, 0⟩ : Task).duree_jours ≤ 0 ∧
      load_rows [⟨some "Dev", some "Code", .text "2025-01-02", .text "2025-01-01"⟩]
        = .ok [⟨"Dev", "Code", ⟨2025, 1, 2⟩, ⟨2025, 1, 1⟩, 0⟩] :=
  c1_duration_policy.2 _ _ (by decide) (by decide)

/-! ## Date-parsing lemmas -/

theorem digit_char_spec : ∀ k : Nat, k < 10 →
    (Char.ofNat (48 + k)).isDigit = true ∧ digitVal (Char.ofNat (48 + k)) = k ∧
      (Char.ofNat (48 + k)).isWhitespace = false := by decide

theorem render2_spec {n : Nat} (h : n < 100) :
    allDigits (render2 n) = true ∧ digitsVal (render2 n) = n ∧
      (render2 n).length = 2 := by
  obtain ⟨d1, v1, -⟩ := digit_char_spec (n / 10) (by omega)
  obtain ⟨d2, v2, -⟩ := digit_char_spec (n % 10) (by omega)
  refine ⟨?_, ?_, rfl⟩
  · simp [allDigits, render2, d1, d2]
  · simp only [digitsVal, render2, List.foldl, v1, v2]
    omega

theorem render4_spec {n : Nat} (h : n < 10000) :
    allDigits (render4 n) = true ∧ digitsVal (render4 n) = n ∧
      (render4 n).length = 4 := by
  obtain ⟨d1, v1, -⟩ := digit_char_spec (n / 1000) (by omega)
  obtain ⟨d2, v2, -⟩ := digit_char_spec (n / 100 % 10) (by omega)
  obtain ⟨d3, v3, -⟩ := digit_char_spec (n / 10 % 10) (by omega)
  obtain ⟨d4, v4, -⟩ := digit_char_spec (n % 10) (by omega)
  refine ⟨?_, ?_, rfl⟩
  · simp [allDigits, render4, d1, d2, d3, d4]
  · simp only [digitsVal, render4, List.foldl, v1, v2, v3, v4]
    omega

theorem not_mem_of_digits {l : List Char} {s : Char} (hl : allDigits l = true)
    (hs : s.isDigit = false) : s ∉ l := by
  intro hmem
  have := List.all_eq_true.mp hl s hmem
  rw [hs] at this
  exact Bool.false_ne_true this

theorem ws_false_of_digits {l : List Char} (hl : allDigits l = true) :
    ∀ c ∈ l, c.isWhitespace = false := by
  intro c hc
  have hd := List.all_eq_true.mp hl c hc
  simp only [Char.isDigit, Bool.and_eq_true, decide_eq_true_eq] at hd
  by_contra hws
  rw [Bool.not_eq_false] at hws
  have hcases : c = ' ' ∨ c = '\t' ∨ c = '\r' ∨ c = '\n' := by
    simpa [Char.isWhitespace, or_assoc] using hws
  rcases hcases with rfl | rfl | rfl | rfl <;> exact absurd hd (by decide)

theorem dropWhile_id {p : Char → Bool} {l : List Char}
    (h : ∀ c ∈ l, p c = false) : l.dropWhile p = l := by
  cases l with
  | nil => rfl
  | cons c cs =>
    rw [List.dropWhile_cons, h c (List.mem_cons_self c cs)]
    simp

theorem stripChars_id {l : List Char} (h : ∀ c ∈ l, c.isWhitespace = false) :
    stripChars l = l := by
  unfold stripChars
  rw [dropWhile_id h, dropWhile_id (by intro c hc; exact h c (List.mem_reverse.mp hc)),
    List.reverse_reverse]

theorem splitOnChar_not_mem {sep : Char} {l : List Char} (h : sep ∉ l) :
    splitOnChar sep l = [l] := by
  induction l with
  | nil => rfl
  | cons c cs ih =>
    have hc : ¬(c = sep) := fun e => h (e ▸ List.mem_cons_self c cs)
    rw [splitOnChar, if_neg hc, ih (fun m => h (List.mem_cons_of_mem c m))]

theorem splitOnChar_append {sep : Char} {xs ys : List Char} (h : sep ∉ xs) :
    splitOnChar sep (xs ++ sep :: ys) = xs :: splitOnChar sep ys := by
  induction xs with
  | nil => simp [splitOnChar]
  | cons c cs ih =>
    have hc : ¬(c = sep) := fun e => h (e ▸ List.mem_cons_self c cs)
    rw [List.cons_append, splitOnChar, if_neg hc,
      ih (fun m => h (List.mem_cons_of_mem c m))]

theorem fieldDM_render2 {n hi : Nat} (h1 : 1 ≤ n) (h2 : n ≤ hi) (h3 : n < 100) :
    fieldDM (render2 n) hi = some n := by
  obtain ⟨hd, hv, hl⟩ := render2_spec h3
  unfold fieldDM
  rw [hl, hd, hv]
  simp [h1, h2]

theorem fieldDM_render4 {n hi : Nat} (h : n < 10000) :
    fieldDM (render4 n) hi = none := by
  obtain ⟨-, -, hl⟩ := render4_spec h
  unfold fieldDM
  rw [hl]
  simp

theorem fieldY_render4 {n : Nat} (h1 : 1 ≤ n) (h2 : n < 10000) :
    fieldY (render4 n) = some n := by
  obtain ⟨hd, hv, hl⟩ := render4_spec h2
  unfold fieldY
  rw [hl, hd, hv]
  simp [h1]

theorem fieldY_render2 {n : Nat} (h : n < 100) : fieldY (render2 n) = none := by
  obtain ⟨-, -, hl⟩ := render2_spec h
  unfold fieldY
  rw [hl]
  simp

theorem validDate_bounds {y m d : Nat} (h : validDate y m d) :
    1 ≤ y ∧ y < 10000 ∧ 1 ≤ m ∧ m < 100 ∧ 1 ≤ d ∧ d < 100 ∧ m ≤ 12 ∧ d ≤ 31 := by
  obtain ⟨h1, h2, h3, h4, h5, h6⟩ := h
  have : daysInMonth y m ≤ 31 := by
    unfold daysInMonth
    split
    · split <;> omega
    · split <;> omega
  omega

theorem mkValidDate_of_valid {y m d : Nat} (h : validDate y m d) :
    mkValidDate y m d = some ⟨y, m, d⟩ := by
  unfold mkValidDate
  rw [if_pos h.2.2.2.2.2]

theorem ws_false_three (sep : Char) {p1 p2 p3 : List Char}
    (h1 : allDigits p1 = true) (h2 : allDigits p2 = true) (h3 : allDigits p3 = true)
    (hs : sep.isWhitespace = false) :
    ∀ c ∈ p1 ++ sep :: (p2 ++ sep :: p3), c.isWhitespace = false := by
  intro c hc
  simp only [List.mem_append, List.mem_cons] at hc
  rcases hc with h | h | h | h | h
  · exact ws_false_of_digits h1 c h
  · exact h ▸ hs
  · exact ws_false_of_digits h2 c h
  · exact h ▸ hs
  · exact ws_false_of_digits h3 c h

theorem not_mem_three {p1 p2 p3 : List Char} {sep s : Char}
    (h1 : allDigits p1 = true) (h2 : allDigits p2 = true) (h3 : allDigits p3 = true)
    (hd : s.isDigit = false) (hne : s ≠ sep) :
    s ∉ p1 ++ sep :: (p2 ++ sep :: p3) := by
  intro hc
  simp only [List.mem_append, List.mem_cons] at hc
  rcases hc with h | h | h | h | h
  · exact not_mem_of_digits h1 hd h
  · exact hne h
  · exact not_mem_of_digits h2 hd h
  · exact hne h
  · exact not_mem_of_digits h3 hd h

theorem tryFormat_single {sep : Char} {ord : FmtOrder} {l : List Char}
    (h : sep ∉ l) : tryFormat sep ord l = none := by
  unfold tryFormat
  rw [splitOnChar_not_mem h]

theorem parse_iso {y m d : Nat} (h : validDate y m d) :
    parse_date (.text (isoStr y m d)) = some ⟨y, m, d⟩ := by
  obtain ⟨hy1, hy2, hm1, hm2, hd1, hd2, hm12, hd31⟩ := validDate_bounds h
  have a1 : allDigits (render4 y) = true := (render4_spec hy2).1
  have a2 : allDigits (render2 m) = true := (render2_spec hm2).1
  have a3 : allDigits (render2 d) = true := (render2_spec hd2).1
  have hstrip : stripChars (isoStr y m d).data
      = render4 y ++ '-' :: (render2 m ++ '-' :: render2 d) :=
    stripChars_id (ws_false_three '-' a1 a2 a3 (by decide))
  have f1 : tryFormat '-' .ymd (render4 y ++ '-' :: (render2 m ++ '-' :: render2 d))
      = some ⟨y, m, d⟩ := by
    unfold tryFormat
    rw [splitOnChar_append (not_mem_of_digits a1 (by decide)),
      splitOnChar_append (not_mem_of_digits a2 (by decide)),
      splitOnChar_not_mem (not_mem_of_digits a3 (by decide))]
    simp only [fieldY_render4 hy1 hy2, fieldDM_render2 hm1 hm12 hm2,
      fieldDM_render2 hd1 hd31 hd2]
    exact mkValidDate_of_valid h
  simp only [parse_date, hstrip, formats, List.findSome?_cons, f1]

theorem parse_dmySlash {y m d : Nat} (h : validDate y m d) :
    parse_date (.text (dmySlashStr y m d)) = some ⟨y, m, d⟩ := by
  obtain ⟨hy1, hy2, hm1, hm2, hd1, hd2, hm12, hd31⟩ := validDate_bounds h
  have a1 : allDigits (render2 d) = true := (render2_spec hd2).1
  have a2 : allDigits (render2 m) = true := (render2_spec hm2).1
  have a3 : allDigits (render4 y) = true := (render4_spec hy2).1
  have hstrip : stripChars (dmySlashStr y m d).data
      = render2 d ++ '/' :: (render2 m ++ '/' :: render4 y) :=
    stripChars_id (ws_false_three '/' a1 a2 a3 (by decide))
  have f1 : tryFormat '-' .ymd (render2 d ++ '/' :: (render2 m ++ '/' :: render4 y)) = none :=
    tryFormat_single (not_mem_three a1 a2 a3 (by decide) (by decide))
  have f2 : tryFormat '/' .dmy (render2 d ++ '/' :: (render2 m ++ '/' :: render4 y))
      = some ⟨y, m, d⟩ := by
    unfold tryFormat
    rw [splitOnChar_append (not_mem_of_digits a1 (by decide)),
      splitOnChar_append (not_mem_of_digits a2 (by decide)),
      splitOnChar_not_mem (not_mem_of_digits a3 (by decide))]
    simp only [fieldDM_render2 hd1 hd31 hd2, fieldDM_render2 hm1 hm12 hm2,
      fieldY_render4 hy1 hy2]
    exact mkValidDate_of_valid h
  simp only [parse_date, hstrip, formats, List.findSome?_cons, f1, f2]

theorem parse_dmyDash {y m d : Nat} (h : validDate y m d) :
    parse_date (.text (dmyDashStr y m d)) = some ⟨y, m, d⟩ := by
  obtain ⟨hy1, hy2, hm1, hm2, hd1, hd2, hm12, hd31⟩ := validDate_bounds h
  have a1 : allDigits (render2 d) = true := (render2_spec hd2).1
  have a2 : allDigits (render2 m) = true := (render2_spec hm2).1
  have a3 : allDigits (render4 y) = true := (render4_spec hy2).1
  have hstrip : stripChars (dmyDashStr y m d).data
      = render2 d ++ '-' :: (render2 m ++ '-' :: render4 y) :=
    stripChars_id (ws_false_three '-' a1 a2 a3 (by decide))
  have f1 : tryFormat '-' .ymd (render2 d ++ '-' :: (render2 m ++ '-' :: render4 y)) = none := by
    unfold tryFormat
    rw [splitOnChar_append (not_mem_of_digits a1 (by decide)),
      splitOnChar_append (not_mem_of_digits a2 (by decide)),
      splitOnChar_not_mem (not_mem_of_digits a3 (by decide))]
    simp only [fieldY_render2 hd2]
  have f2 : tryFormat '/' .dmy (render2 d ++ '-' :: (render2 m ++ '-' :: render4 y)) = none :=
    tryFormat_single (not_mem_three a1 a2 a3 (by decide) (by decide))
  have f3 : tryFormat '-' .dmy (render2 d ++ '-' :: (render2 m ++ '-' :: render4 y))
      = some ⟨y, m, d⟩ := by
    unfold tryFormat
    rw [splitOnChar_append (not_mem_of_digits a1 (by decide)),
      splitOnChar_append (not_mem_of_digits a2 (by decide)),
      splitOnChar_not_mem (not_mem_of_digits a3 (by decide))]
    simp only [fieldDM_render2 hd1 hd31 hd2, fieldDM_render2 hm1 hm12 hm2,
      fieldY_render4 hy1 hy2]
    exact mkValidDate_of_valid h
  simp only [parse_date, hstrip, formats, List.findSome?_cons, f1, f2, f3]

theorem parse_ymdSlash {y m d : Nat} (h : validDate y m d) :
    parse_date (.text (ymdSlashStr y m d)) = some ⟨y, m, d⟩ := by
  obtain ⟨hy1, hy2, hm1, hm2, hd1, hd2, hm12, hd31⟩ := validDate_bounds h
  have a1 : allDigits (render4 y) = true := (render4_spec hy2).1
  have a2 : allDigits (render2 m) = true := (render2_spec hm2).1
  have a3 : allDigits (render2 d) = true := (render2_spec hd2).1
  have hstrip : stripChars (ymdSlashStr y m d).data
      = render4 y ++ '/' :: (render2 m ++ '/' :: render2 d) :=
    stripChars_id (ws_false_three '/' a1 a2 a3 (by decide))
  have f1 : tryFormat '-' .ymd (render4 y ++ '/' :: (render2 m ++ '/' :: render2 d)) = none :=
    tryFormat_single (not_mem_three a1 a2 a3 (by decide) (by decide))
  have f2 : tryFormat '/' .dmy (render4 y ++ '/' :: (render2 m ++ '/' :: render2 d)) = none := by
    unfold tryFormat
    rw [splitOnChar_append (not_mem_of_digits a1 (by decide)),
      splitOnChar_append (not_mem_of_digits a2 (by decide)),
      splitOnChar_not_mem (not_mem_of_digits a3 (by decide))]
    simp only [fieldDM_render4 hy2]
  have f3 : tryFormat '-' .dmy (render4 y ++ '/' :: (render2 m ++ '/' :: render2 d)) = none :=
    tryFormat_single (not_mem_three a1 a2 a3 (by decide) (by decide))
  have f4 : tryFormat '/' .ymd (render4 y ++ '/' :: (render2 m ++ '/' :: render2 d))
      = some ⟨y, m, d⟩ := by
    unfold tryFormat
    rw [splitOnChar_append (not_mem_of_digits a1 (by decide)),
      splitOnChar_append (not_mem_of_digits a2 (by decide)),
      splitOnChar_not_mem (not_mem_of_digits a3 (by decide))]
    simp only [fieldY_render4 hy1 hy2, fieldDM_render2 hm1 hm12 hm2,
      fieldDM_render2 hd1 hd31 hd2]
    exact mkValidDate_of_valid h
  simp only [parse_date, hstrip, formats, List.findSome?_cons, f1, f2, f3, f4]

theorem parse_dmyDot {y m d : Nat} (h : validDate y m d) :
    parse_date (.text (dmyDotStr y m d)) = some ⟨y, m, d⟩ := by
  obtain ⟨hy1, hy2, hm1, hm2, hd1, hd2, hm12, hd31⟩ := validDate_bounds h
  have a1 : allDigits (render2 d) = true := (render2_spec hd2).1
  have a2 : allDigits (render2 m) = true := (render2_spec hm2).1
  have a3 : allDigits (render4 y) = true := (render4_spec hy2).1
  have hstrip : stripChars (dmyDotStr y m d).data
      = render2 d ++ '.' :: (render2 m ++ '.' :: render4 y) :=
    stripChars_id (ws_false_three '.' a1 a2 a3 (by decide))
  have f1 : tryFormat '-' .ymd (render2 d ++ '.' :: (render2 m ++ '.' :: render4 y)) = none :=
    tryFormat_single (not_mem_three a1 a2 a3 (by decide) (by decide))
  have f2 : tryFormat '/' .dmy (render2 d ++ '.' :: (render2 m ++ '.' :: render4 y)) = none :=
    tryFormat_single (not_mem_three a1 a2 a3 (by decide) (by decide))
  have f3 : tryFormat '-' .dmy (render2 d ++ '.' :: (render2 m ++ '.' :: render4 y)) = none :=
    tryFormat_single (not_mem_three a1 a2 a3 (by decide) (by decide))
  have f4 : tryFormat '/' .ymd (render2 d ++ '.' :: (render2 m ++ '.' :: render4 y)) = none :=
    tryFormat_single (not_mem_three a1 a2 a3 (by decide) (by decide))
  have f5 : tryFormat '.' .dmy (render2 d ++ '.' :: (render2 m ++ '.' :: render4 y))
      = some ⟨y, m, d⟩ := by
    unfold tryFormat
    rw [splitOnChar_append (not_mem_of_digits a1 (by decide)),
      splitOnChar_append (not_mem_of_digits a2 (by decide)),
      splitOnChar_not_mem (not_mem_of_digits a3 (by decide))]
    simp only [fieldDM_render2 hd1 hd31 hd2, fieldDM_render2 hm1 hm12 hm2,
      fieldY_render4 hy1 hy2]
    exact mkValidDate_of_valid h
  simp only [parse_date, hstrip, formats, List.findSome?_cons, f1, f2, f3, f4, f5]

/-! ## C2: supported date formats and the parse-format roundtrip -/

/-- C2 counterexample: the spec's sixth format `YYYY.MM.DD` is not
supported — the rendering of 2025-03-04 in that format, the string
`"2025.03.04"`, fails to parse. -/
theorem c2_counterexample :
    parse_date (.text (ymdDotStr 2025 3 4)) = none ∧
      ymdDotStr 2025 3 4 = "2025.03.04" := by
  constructor <;> decide

/-- C2 (amended): the date parser accepts exactly the five textual formats
`YYYY-MM-DD`, `DD/MM/YYYY`, `DD-MM-YYYY`, `YYYY/MM/DD` and `DD.MM.YYYY`
(after trimming whitespace) — `YYYY.MM.DD` is not among them — and for
each supported format and every calendar date, parsing the rendering of
the date in that format returns that date. -/
theorem c2_roundtrip : ∀ y m d : Nat, validDate y m d →
    parse_date (.text (isoStr y m d)) = some ⟨y, m, d⟩ ∧
    parse_date (.text (dmySlashStr y m d)) = some ⟨y, m, d⟩ ∧
    parse_date (.text (dmyDashStr y m d)) = some ⟨y, m, d⟩ ∧
    parse_date (.text (ymdSlashStr y m d)) = some ⟨y, m, d⟩ ∧
    parse_date (.text (dmyDotStr y m d)) = some ⟨y, m, d⟩ := by
  intro y m d h
  exact ⟨parse_iso h, parse_dmySlash h, parse_dmyDash h, parse_ymdSlash h, parse_dmyDot h⟩

/-- C2 witness: the roundtrip theorem at the concrete date 2025-01-10 in
each of the five formats. -/
theorem c2_roundtrip_witness :
    parse_date (.text "2025-01-10") = some ⟨2025, 1, 10⟩ ∧
      parse_date (.text "10/01/2025") = some ⟨2025, 1, 10⟩ ∧
      parse_date (.text "10-01-2025") = some ⟨2025, 1, 10⟩ ∧
      parse_date (.text "2025/01/10") = some ⟨2025, 1, 10⟩ ∧
      parse_date (.text "10.01.2025") = some ⟨2025, 1, 10⟩ := by
  have h := c2_roundtrip 2025 1 10 (by decide)
  obtain ⟨h1, h2, h3, h4, h5⟩ := h
  rw [show isoStr 2025 1 10 = "2025-01-10" by decide] at h1
  rw [show dmySlashStr 2025 1 10 = "10/01/2025" by decide] at h2
  rw [show dmyDashStr 2025 1 10 = "10-01-2025" by decide] at h3
  rw [show ymdSlashStr 2025 1 10 = "2025/01/10" by decide] at h4
  rw [show dmyDotStr 2025 1 10 = "10.01.2025" by decide] at h5
  exact ⟨h1, h2, h3, h4, h5⟩

/-! ## C5: first-match-wins and the day-first reading of NN/NN/YYYY -/

/-- C5: every string of shape `NN/NN/YYYY` that is a valid calendar date
under the day-first reading parses day-first (the `%d/%m/%Y` pattern is
the first matching pattern in list order), and never month-first. -/
theorem c5_day_first : ∀ y m d : Nat, validDate y m d →
    parse_date (.text (dmySlashStr y m d)) = some ⟨y, m, d⟩ ∧
      (m ≠ d → parse_date (.text (dmySlashStr y m d)) ≠ some ⟨y, d, m⟩) := by
  intro y m d h
  refine ⟨parse_dmySlash h, fun hne hq => ?_⟩
  rw [parse_dmySlash h] at hq
  have := Option.some.inj hq
  rw [Date.mk.injEq] at this
  exact hne this.2.1

/-- C5 witness: `"01/02/2025"` parses to 1 February 2025 and not to
2 January 2025. -/
theorem c5_day_first_witness :
    parse_date (.text "01/02/2025") = some ⟨2025, 2, 1⟩ ∧
      parse_date (.text "01/02/2025") ≠ some ⟨2025, 1, 2⟩ := by
  have h := c5_day_first 2025 2 1 (by decide)
  rw [show dmySlashStr 2025 2 1 = "01/02/2025" by decide] at h
  exact ⟨h.1, h.2 (by decide)⟩

/-! ## C10: missing category cells versus missing task names -/

/-- C10: a row whose category cell is missing is not rejected — the
category is coerced to the text placeholder `"nan"` — while a row whose
(trimmed) task name is empty or the placeholder `"nan"` is dropped; a row
with parseable dates and a valid name is always kept. -/
theorem c10_missing_category :
    (∀ r t, r.categorie = none → rowTask r = some t → t.categorie = "nan") ∧
    (∀ r db fn, parse_date r.debut = some db → parse_date r.fin = some fn →
       cellStr r.tache ≠ "" → cellStr r.tache ≠ "nan" →
       rowTask r = some ⟨cellStr r.categorie, cellStr r.tache, db, fn,
         dayNumber fn - dayNumber db + 1⟩) ∧
    (∀ r, cellStr r.tache = "" ∨ cellStr r.tache = "nan" → rowTask r = none) := by
  refine ⟨?_, ?_, ?_⟩
  · intro r t hc hr
    obtain ⟨db, fn, -, -, rfl, -, -⟩ := rowTask_eq_some hr
    simp [hc, cellStr]
  · intro r db fn hdb hfn h1 h2
    unfold rowTask
    rw [hdb, hfn]
    simp [h1, h2]
  · intro r h
    unfold rowTask
    split
    · simp [h]
    · rfl

/-- C10 witness: a concrete row with a missing category cell is kept with
category `"nan"`, and a concrete row whose task cell strips to `"nan"` is
dropped. -/
theorem c10_missing_category_witness :
    rowTask ⟨none, some "t", .instant ⟨2025, 1, 1⟩, .instant ⟨2025, 1, 2⟩⟩
        = some ⟨"nan", "t", ⟨2025, 1, 1⟩, ⟨2025, 1, 2⟩, 2⟩ ∧
      rowTask ⟨some "Dev", some " nan ", .instant ⟨2025, 1, 1⟩, .instant ⟨2025, 1, 2⟩⟩
        = none := by
  constructor
  · have h := c10_missing_category.2.1
      ⟨none, some "t", .instant ⟨2025, 1, 1⟩, .instant ⟨2025, 1, 2⟩⟩
      ⟨2025, 1, 1⟩ ⟨2025, 1, 2⟩ (by decide) (by decide) (by decide) (by decide)
    rw [h]
    decide
  · exact c10_missing_category.2.2
      ⟨some "Dev", some " nan ", .instant ⟨2025, 1, 1⟩, .instant ⟨2025, 1, 2⟩⟩
      (by decide)

/-! ## C3: resolution failure reporting -/

/-- C3 counterexample: for the header row
`["Team", "Activity", "Kickoff", "Deadline"]` resolution fails with the
missing-columns message, but that message does not include the available
headers: `"Team"` does not occur in it. -/
theorem c3_counterexample :
    resolveColumns ["Team", "Activity", "Kickoff", "Deadline"]
        = .error ("Colonnes manquantes: categorie, tache, debut, fin") ∧
      containsStr ("Colonnes manquantes: categorie, tache, debut, fin") ("Team") = false := by
  constructor <;> decide

/-- C3 (amended): when a logical column fails to resolve, resolution fails
as a whole — no TaskSet is produced by `load_data` — and the reported
message names every missing logical field; the list of available headers,
however, is not part of the report. -/
theorem c3_resolution_error : ∀ headers : List String,
    ((find_column headers catSyns = none ∨ find_column headers tacheSyns = none
        ∨ find_column headers debutSyns = none ∨ find_column headers finSyns = none) →
      ∀ mp, resolveColumns headers ≠ .ok mp) ∧
    (∀ e, resolveColumns headers = .error e →
      (∀ rows, load_data headers rows = .error e) ∧
      (find_column headers catSyns = none → containsStr e ("categorie") = true) ∧
      (find_column headers tacheSyns = none → containsStr e ("tache") = true) ∧
      (find_column headers debutSyns = none → containsStr e ("debut") = true) ∧
      (find_column headers finSyns = none → containsStr e ("fin") = true)) := by
  intro headers
  rcases hc : find_column headers catSyns with _ | c <;>
  rcases ht : find_column headers tacheSyns with _ | t <;>
  rcases hd : find_column headers debutSyns with _ | d <;>
  rcases hf : find_column headers finSyns with _ | f <;>
  simp only [resolveColumns, load_data, hc, ht, hd, hf, Option.isNone_none,
    Option.isNone_some] <;>
  first
    | (refine ⟨fun hdis mp h => ?_, fun e he => Except.noConfusion he⟩
       rcases hdis with h2 | h2 | h2 | h2 <;> exact Option.noConfusion h2)
    | (refine ⟨fun _ mp h => Except.noConfusion h, fun e he => ?_⟩
       injection he with h
       subst h
       refine ⟨fun rows => rfl, ?_, ?_, ?_, ?_⟩ <;>
         first
           | exact fun hcon => Option.noConfusion hcon
           | (intro hmiss; decide))

/-- C3 witness: the amended theorem at the counterexample's header row —
the message names the missing field `"fin"`. -/
theorem c3_resolution_error_witness :
    containsStr ("Colonnes manquantes: categorie, tache, debut, fin") ("fin") = true :=
  ((c3_resolution_error ["Team", "Activity", "Kickoff", "Deadline"]).2
    ("Colonnes manquantes: categorie, tache, debut, fin") (by decide)).2.2.2.2 (by decide)

/-! ## C6: synonym matching in column resolution -/

theorem dictFind_go_isSome {k : String} : ∀ (hs : List String) (acc : Option String),
    ((∃ hh ∈ hs, strip (lower hh) = k) ∨ acc.isSome = true) →
    (hs.foldl (fun a c => if strip (lower c) = k then some c else a) acc).isSome = true := by
  intro hs
  induction hs with
  | nil =>
    intro acc h
    rcases h with ⟨hh, hmem, -⟩ | h
    · exact absurd hmem (List.not_mem_nil hh)
    · exact h
  | cons c cs ih =>
    intro acc h
    rw [List.foldl_cons]
    apply ih
    rcases h with ⟨hh, hmem, hk⟩ | h
    · rcases List.mem_cons.mp hmem with rfl | hmem2
      · right
        rw [if_pos hk]
        rfl
      · exact Or.inl ⟨hh, hmem2, hk⟩
    · right
      by_cases hck : strip (lower c) = k
      · rw [if_pos hck]; rfl
      · rw [if_neg hck]; exact h

theorem dictFind_go_mem {k : String} : ∀ (hs : List String) (acc : Option String) (hh : String),
    hs.foldl (fun a c => if strip (lower c) = k then some c else a) acc = some hh →
    (hh ∈ hs ∧ strip (lower hh) = k) ∨ acc = some hh := by
  intro hs
  induction hs with
  | nil => intro acc hh h; exact Or.inr h
  | cons c cs ih =>
    intro acc hh h
    rw [List.foldl_cons] at h
    rcases ih _ hh h with ⟨hmem, hk⟩ | hacc
    · exact Or.inl ⟨List.mem_cons_of_mem c hmem, hk⟩
    · by_cases hck : strip (lower c) = k
      · rw [if_pos hck] at hacc
        injection hacc with he
        subst he
        exact Or.inl ⟨List.mem_cons_self c cs, hck⟩
      · rw [if_neg hck] at hacc
        exact Or.inr hacc

theorem dictFind_isSome {headers : List String} {k : String}
    (h : ∃ hh ∈ headers, strip (lower hh) = k) : (dictFind headers k).isSome = true :=
  dictFind_go_isSome headers none (Or.inl h)

theorem dictFind_mem {headers : List String} {k hh : String}
    (h : dictFind headers k = some hh) : hh ∈ headers ∧ strip (lower hh) = k := by
  rcases dictFind_go_mem headers none hh h with hres | hcon
  · exact hres
  · exact Option.noConfusion hcon

theorem findSome?_append_none {α β : Type} {g : α → Option β} :
    ∀ (pre rest : List α), (∀ p ∈ pre, g p = none) →
      List.findSome? g (pre ++ rest) = List.findSome? g rest := by
  intro pre
  induction pre with
  | nil => intro rest _; rfl
  | cons p ps ih =>
    intro rest h
    rw [List.cons_append, List.findSome?_cons, h p (List.mem_cons_self p ps),
      ih rest (fun q hq => h q (List.mem_cons_of_mem p hq))]

/-- C6 counterexample: the synonym `" start "` equals the header `"start"`
after lower-casing and trimming both, yet the field does not resolve — the
source trims the header but only lower-cases the synonym. -/
theorem c6_counterexample :
    strip (lower (" start ")) = strip (lower ("start")) ∧
      find_column ["start"] [" start "] = none := by
  constructor <;> decide

/-- C6 (amended): `find_column` matches case-insensitively, but trims only
the header, not the synonym: a field resolves whenever some synonym's
lower-cased form equals some header's lower-cased trimmed form; any
resolved header matches some synonym in that sense; and the first synonym
in list order whose lower-cased form is a key of the header dict
determines the chosen header. -/
theorem c6_synonym_matching :
    (∀ (headers names : List String) (n : String), n ∈ names →
       (∃ hh ∈ headers, strip (lower hh) = lower n) →
       (find_column headers names).isSome = true) ∧
    (∀ (headers names : List String) (hh : String), find_column headers names = some hh →
       hh ∈ headers ∧ ∃ n ∈ names, strip (lower hh) = lower n) ∧
    (∀ (headers pre post : List String) (n hh : String),
       (∀ p ∈ pre, dictFind headers (lower p) = none) →
       dictFind headers (lower n) = some hh →
       find_column headers (pre ++ n :: post) = some hh) := by
  refine ⟨?_, ?_, ?_⟩
  · intro headers names n hn hex
    unfold find_column
    rw [List.findSome?_isSome_iff]
    exact ⟨n, hn, dictFind_isSome hex⟩
  · intro headers names hh h
    obtain ⟨n, hn, hfind⟩ := List.exists_of_findSome?_eq_some h
    obtain ⟨hmem, hk⟩ := dictFind_mem hfind
    exact ⟨hmem, n, hn, hk⟩
  · intro headers pre post n hh hpre hn
    unfold find_column
    rw [findSome?_append_none pre (n :: post) hpre, List.findSome?_cons, hn]

/-- C6 witness: the amended theorem on concrete data — `"Début"` resolves
the start field against the accented synonym, and with headers
`["start", "debut"]` the first matching synonym `"debut"` (second in the
list, after `"début"` fails) picks the header `"debut"`. -/
theorem c6_synonym_matching_witness :
    (find_column ["Catégorie", " Début "] debutSyns).isSome = true ∧
      find_column ["start", "debut"] debutSyns = some "debut" := by
  constructor
  · exact c6_synonym_matching.1 ["Catégorie", " Début "] debutSyns "début"
      (by decide) (by decide)
  · exact c6_synonym_matching.2.2 ["start", "debut"] ["début"]
      ["start", "date_debut", "start_date"] "debut" "debut" (by decide) (by decide)

/-! ## Order lemmas for the sort key -/

theorem charsLt_trans : ∀ xs ys zs : List Char,
    charsLt xs ys = true → charsLt ys zs = true → charsLt xs zs = true := by
  intro xs
  induction xs with
  | nil =>
    intro ys zs h1 h2
    cases ys with
    | nil => exact absurd h1 (by simp [charsLt])
    | cons b bs =>
      cases zs with
      | nil => exact absurd h2 (by simp [charsLt])
      | cons c cs => simp [charsLt]
  | cons a as ih =>
    intro ys zs h1 h2
    cases ys with
    | nil => exact absurd h1 (by simp [charsLt])
    | cons b bs =>
      cases zs with
      | nil => exact absurd h2 (by simp [charsLt])
      | cons c cs =>
        simp only [charsLt, Bool.or_eq_true, Bool.and_eq_true, decide_eq_true_eq] at h1 h2 ⊢
        rcases h1 with h1 | ⟨rfl, h1⟩
        · rcases h2 with h2 | ⟨rfl, h2⟩
          · exact Or.inl (Nat.lt_trans h1 h2)
          · exact Or.inl h1
        · rcases h2 with h2 | ⟨rfl, h2⟩
          · exact Or.inl h2
          · exact Or.inr ⟨rfl, ih bs cs h1 h2⟩

theorem charsLt_connex : ∀ xs ys : List Char,
    charsLt xs ys = false → charsLt ys xs = false → xs = ys := by
  intro xs
  induction xs with
  | nil =>
    intro ys h1 h2
    cases ys with
    | nil => rfl
    | cons b bs => exact absurd h1 (by simp [charsLt])
  | cons a as ih =>
    intro ys h1 h2
    cases ys with
    | nil => exact absurd h2 (by simp [charsLt])
    | cons b bs =>
      simp only [charsLt, Bool.or_eq_false_iff, Bool.and_eq_false_iff,
        decide_eq_false_iff_not] at h1 h2
      have hab : a = b := by
        have h3 := h1.1
        have h4 := h2.1
        have : a.toNat = b.toNat := by omega
        have := congrArg Char.ofNat this
        rwa [Char.ofNat_toNat, Char.ofNat_toNat] at this
      subst hab
      rcases h1.2 with h1c | h1c
      · exact absurd rfl h1c
      · rcases h2.2 with h2c | h2c
        · exact absurd rfl h2c
        · rw [ih bs h1c h2c]

theorem strLt_trans {a b c : String} (h1 : strLt a b = true) (h2 : strLt b c = true) :
    strLt a c = true := charsLt_trans a.data b.data c.data h1 h2

theorem strLt_connex {a b : String} (h1 : strLt a b = false) (h2 : strLt b a = false) :
    a = b := by
  have h3 := charsLt_connex a.data b.data h1 h2
  cases a
  cases b
  exact congrArg String.mk h3

theorem taskLE_trans (a b c : Task) : taskLE a b → taskLE b c → taskLE a c := by
  unfold taskLE
  simp only [Bool.or_eq_true, Bool.and_eq_true, decide_eq_true_eq]
  intro h1 h2
  rcases h1 with h1 | ⟨he1, hd1⟩
  · rcases h2 with h2 | ⟨he2, hd2⟩
    · exact Or.inl (strLt_trans h1 h2)
    · exact Or.inl (he2 ▸ h1)
  · rcases h2 with h2 | ⟨he2, hd2⟩
    · exact Or.inl (he1 ▸ h2)
    · exact Or.inr ⟨he1.trans he2, le_trans hd1 hd2⟩

theorem taskLE_total (a b : Task) : taskLE a b || taskLE b a := by
  unfold taskLE
  simp only [Bool.or_eq_true, Bool.and_eq_true, decide_eq_true_eq]
  cases hab : strLt a.categorie b.categorie with
  | true => exact Or.inl (Or.inl rfl)
  | false =>
    cases hba : strLt b.categorie a.categorie with
    | true => exact Or.inr (Or.inl rfl)
    | false =>
      have he := strLt_connex hab hba
      rcases le_total (dayNumber a.debut) (dayNumber b.debut) with h2 | h2
      · exact Or.inl (Or.inr ⟨he, h2⟩)
      · exact Or.inr (Or.inr ⟨he.symm, h2⟩)

theorem sortTasks_pairwise (l : List Task) :
    (sortTasks l).Pairwise (fun a b => taskLE a b = true) :=
  List.sorted_mergeSort taskLE_trans taskLE_total l

/-! ## C7: sort order and stability of the normalized TaskSet -/

/-- C7: the TaskSet produced by `load_data` is sorted by (category, start)
ascending — for every adjacent pair, either the category strictly
increases, or the categories are equal and the start does not decrease —
and the sort is stable: it coincides with the sort of the index-annotated
rows in which ties are broken by the original row index; the TaskSet
produced by `load_data` is exactly the sorted normalized row list. -/
theorem c7_sorted_stable : ∀ l : List Task,
    (∀ i (h : i + 1 < (sortTasks l).length),
       strLt ((sortTasks l).get ⟨i, by omega⟩).categorie
           ((sortTasks l).get ⟨i + 1, h⟩).categorie = true ∨
       (((sortTasks l).get ⟨i, by omega⟩).categorie
           = ((sortTasks l).get ⟨i + 1, h⟩).categorie ∧
         dayNumber ((sortTasks l).get ⟨i, by omega⟩).debut
           ≤ dayNumber ((sortTasks l).get ⟨i + 1, h⟩).debut)) ∧
    sortTasks l = (List.mergeSort l.enum (List.enumLE taskLE)).map Prod.snd ∧
    (∀ rows ts, load_rows rows = .ok ts → ts = sortTasks (rows.filterMap rowTask)) := by
  intro l
  refine ⟨?_, ?_, fun rows ts h => load_rows_ok h⟩
  · intro i h
    have hp := sortTasks_pairwise l
    rw [List.pairwise_iff_get] at hp
    have := hp ⟨i, by omega⟩ ⟨i + 1, h⟩ (by simp)
    unfold taskLE at this
    simp only [Bool.or_eq_true, Bool.and_eq_true, decide_eq_true_eq] at this
    exact this
  · exact (List.mergeSort_enum).symm

/-- C7 witness: the sortedness clause applied to a concrete two-row
TaskSet whose rows arrive in reverse category order. -/
theorem c7_sorted_stable_witness :
    strLt ((sortTasks [⟨"B", "x", ⟨2025, 1, 2⟩, ⟨2025, 1, 3⟩, 2⟩,
          ⟨"A", "y", ⟨2025, 1, 1⟩, ⟨2025, 1, 1⟩, 1⟩]).get ⟨0, by simp [sortTasks]⟩).categorie
        ((sortTasks [⟨"B", "x", ⟨2025, 1, 2⟩, ⟨2025, 1, 3⟩, 2⟩,
          ⟨"A", "y", ⟨2025, 1, 1⟩, ⟨2025, 1, 1⟩, 1⟩]).get ⟨1, by simp [sortTasks]⟩).categorie
        = true ∨
      (((sortTasks [⟨"B", "x", ⟨2025, 1, 2⟩, ⟨2025, 1, 3⟩, 2⟩,
          ⟨"A", "y", ⟨2025, 1, 1⟩, ⟨2025, 1, 1⟩, 1⟩]).get ⟨0, by simp [sortTasks]⟩).categorie
          = ((sortTasks [⟨"B", "x", ⟨2025, 1, 2⟩, ⟨2025, 1, 3⟩, 2⟩,
          ⟨"A", "y", ⟨2025, 1, 1⟩, ⟨2025, 1, 1⟩, 1⟩]).get ⟨1, by simp [sortTasks]⟩).categorie ∧
        dayNumber ((sortTasks [⟨"B", "x", ⟨2025, 1, 2⟩, ⟨2025, 1, 3⟩, 2⟩,
          ⟨"A", "y", ⟨2025, 1, 1⟩, ⟨2025, 1, 1⟩, 1⟩]).get ⟨0, by simp [sortTasks]⟩).debut
          ≤ dayNumber ((sortTasks [⟨"B", "x", ⟨2025, 1, 2⟩, ⟨2025, 1, 3⟩, 2⟩,
          ⟨"A", "y", ⟨2025, 1, 1⟩, ⟨2025, 1, 1⟩, 1⟩]).get ⟨1, by simp [sortTasks]⟩).debut) :=
  (c7_sorted_stable [⟨"B", "x", ⟨2025, 1, 2⟩, ⟨2025, 1, 3⟩, 2⟩,
    ⟨"A", "y", ⟨2025, 1, 1⟩, ⟨2025, 1, 1⟩, 1⟩]).1 0 (by simp [sortTasks])

/-! ## C8: cyclic palette assignment in first-seen category order -/

theorem uniqueAux_spec : ∀ (l seen : List String),
    (uniqueAux seen l).Nodup ∧ ∀ x ∈ uniqueAux seen l, x ∈ l ∧ x ∉ seen := by
  intro l
  induction l with
  | nil => intro seen; exact ⟨List.nodup_nil, by simp [uniqueAux]⟩
  | cons c cs ih =>
    intro seen
    by_cases hc : c ∈ seen
    · simp only [uniqueAux, if_pos hc]
      refine ⟨(ih seen).1, fun x hx => ?_⟩
      obtain ⟨h1, h2⟩ := (ih seen).2 x hx
      exact ⟨List.mem_cons_of_mem c h1, h2⟩
    · simp only [uniqueAux, if_neg hc]
      obtain ⟨ihnd, ihmem⟩ := ih (c :: seen)
      constructor
      · rw [List.nodup_cons]
        exact ⟨fun hmem => (ihmem c hmem).2 (List.mem_cons_self c seen), ihnd⟩
      · intro x hx
        rcases List.mem_cons.mp hx with rfl | hx2
        · exact ⟨List.mem_cons_self x cs, hc⟩
        · obtain ⟨h1, h2⟩ := ihmem x hx2
          exact ⟨List.mem_cons_of_mem c h1, fun hxs => h2 (List.mem_cons_of_mem c hxs)⟩

theorem uniqueList_nodup (l : List String) : (uniqueList l).Nodup := (uniqueAux_spec l []).1

theorem colors_length (n : Nat) : (colors n).length = n := by simp [colors]

theorem colors_get {n i : Nat} (h : i < (colors n).length) :
    (colors n).get ⟨i, h⟩ = palette.get ⟨i % palette.length, Nat.mod_lt i (by decide)⟩ := by
  simp [colors]

theorem lookup_zip : ∀ (keys vals : List String) (i : Nat) (h1 : i < keys.length)
    (h2 : i < vals.length), keys.Nodup →
    (keys.zip vals).lookup (keys.get ⟨i, h1⟩) = some (vals.get ⟨i, h2⟩)
  | k :: ks, v :: vs, 0, _, _, _ => by simp [List.lookup]
  | k :: ks, v :: vs, i + 1, h1, h2, hnd => by
    have hlt : i < ks.length := by simpa using h1
    have hne : ks.get ⟨i, hlt⟩ ≠ k := by
      intro he
      exact (List.nodup_cons.mp hnd).1 (he ▸ List.get_mem ks i hlt)
    have hbeq : (ks.get ⟨i, hlt⟩ == k) = false := beq_eq_false_iff_ne.mpr hne
    simp only [List.zip_cons_cons, List.get_cons_succ, List.lookup, hbeq]
    exact lookup_zip ks vs i hlt (by simpa using h2) (List.nodup_cons.mp hnd).2
  | [], _, i, h1, _, _ => by simp at h1
  | _ :: _, [], i, _, h2, _ => by simp at h2

theorem charsLt_irrefl : ∀ xs : List Char, charsLt xs xs = false := by
  intro xs
  induction xs with
  | nil => rfl
  | cons a as ih => simp [charsLt, ih]

theorem catLE_antisymm : ∀ a b : String, (strLt a b = true ∨ a = b) →
    (strLt b a = true ∨ b = a) → a = b := by
  intro a b h1 h2
  rcases h1 with h1 | rfl
  · rcases h2 with h2 | rfl
    · have := strLt_trans h1 h2
      rw [show strLt a a = false from charsLt_irrefl a.data] at this
      exact Bool.noConfusion this
    · rfl
  · rfl

theorem map_cat_sorted (l : List Task) :
    ((sortTasks l).map Task.categorie).Pairwise (fun x y => strLt x y = true ∨ x = y) := by
  refine List.Pairwise.map Task.categorie ?_ (sortTasks_pairwise l)
  intro a b h
  unfold taskLE at h
  simp only [Bool.or_eq_true, Bool.and_eq_true, decide_eq_true_eq] at h
  rcases h with h | ⟨he, -⟩
  · exact Or.inl h
  · exact Or.inr he

theorem sorted_cat_eq {l1 l2 : List Task} (hp : l1.Perm l2) :
    (sortTasks l1).map Task.categorie = (sortTasks l2).map Task.categorie := by
  have hperm : ((sortTasks l1).map Task.categorie).Perm ((sortTasks l2).map Task.categorie) :=
    ((List.mergeSort_perm l1 taskLE).map _).trans
      ((hp.map _).trans ((List.mergeSort_perm l2 taskLE).map _).symm)
  exact @List.eq_of_perm_of_sorted String (fun x y => strLt x y = true ∨ x = y)
    ⟨catLE_antisymm⟩ _ _ hperm (map_cat_sorted l1) (map_cat_sorted l2)

/-- C8: the palette has ten colors and the category first seen at position
`i` of the sorted TaskSet receives `palette[i % 10]` (so with more than
ten categories the colors repeat cyclically); and re-ordering the input
rows (any permutation, in particular within a category) leaves the
first-seen category order of the normalized TaskSet, and hence every
category's assigned color, unchanged. -/
theorem c8_color_assignment :
    palette.length = 10 ∧
    (∀ (data : List Task) (i : Nat) (h : i < (svgCats data).length),
       (svgCmap data).lookup ((svgCats data).get ⟨i, h⟩)
         = some (palette.get ⟨i % palette.length, Nat.mod_lt i (by decide)⟩)) ∧
    (∀ (rows rows2 : List RawRow) (ts ts2 : List Task), rows.Perm rows2 →
       load_rows rows = .ok ts → load_rows rows2 = .ok ts2 →
       svgCats ts = svgCats ts2 ∧ svgCmap ts = svgCmap ts2) := by
  refine ⟨rfl, ?_, ?_⟩
  · intro data i h
    have h2 : i < (colors (svgCats data).length).length := by
      rw [colors_length]; exact h
    rw [svgCmap, lookup_zip (svgCats data) _ i h h2 (uniqueList_nodup _), colors_get]
  · intro rows rows2 ts ts2 hperm h1 h2
    have e1 := load_rows_ok h1
    have e2 := load_rows_ok h2
    subst e1
    subst e2
    have hmap := sorted_cat_eq (hperm.filterMap rowTask)
    have hcats : svgCats (sortTasks (rows.filterMap rowTask))
        = svgCats (sortTasks (rows2.filterMap rowTask)) := by
      unfold svgCats
      rw [hmap]
    exact ⟨hcats, congrArg (fun cs => cs.zip (colors cs.length)) hcats⟩

/-- C8 witness: with eleven distinct categories the category first seen at
position 10 receives `palette[10 % 10] = palette[0]`; and the permutation
clause applied to a concrete single-row load. -/
theorem c8_color_assignment_witness :
    ((svgCmap [⟨"c01", "t", ⟨2025, 1, 1⟩, ⟨2025, 1, 1⟩, 1⟩,
        ⟨"c02", "t", ⟨2025, 1, 1⟩, ⟨2025, 1, 1⟩, 1⟩,
        ⟨"c03", "t", ⟨2025, 1, 1⟩, ⟨2025, 1, 1⟩, 1⟩,
        ⟨"c04", "t", ⟨2025, 1, 1⟩, ⟨2025, 1, 1⟩, 1⟩,
        ⟨"c05", "t", ⟨2025, 1, 1⟩, ⟨2025, 1, 1⟩, 1⟩,
        ⟨"c06", "t", ⟨2025, 1, 1⟩, ⟨2025, 1, 1⟩, 1⟩,
        ⟨"c07", "t", ⟨2025, 1, 1⟩, ⟨2025, 1, 1⟩, 1⟩,
        ⟨"c08", "t", ⟨2025, 1, 1⟩, ⟨2025, 1, 1⟩, 1⟩,
        ⟨"c09", "t", ⟨2025, 1, 1⟩, ⟨2025, 1, 1⟩, 1⟩,
        ⟨"c10", "t", ⟨2025, 1, 1⟩, ⟨2025, 1, 1⟩, 1⟩,
        ⟨"c11", "t", ⟨2025, 1, 1⟩, ⟨2025, 1, 1⟩, 1⟩]).lookup
        ((svgCats [⟨"c01", "t", ⟨2025, 1, 1⟩, ⟨2025, 1, 1⟩, 1⟩,
        ⟨"c02", "t", ⟨2025, 1, 1⟩, ⟨2025, 1, 1⟩, 1⟩,
        ⟨"c03", "t", ⟨2025, 1, 1⟩, ⟨2025, 1, 1⟩, 1⟩,
        ⟨"c04", "t", ⟨2025, 1, 1⟩, ⟨2025, 1, 1⟩, 1⟩,
        ⟨"c05", "t", ⟨2025, 1, 1⟩, ⟨2025, 1, 1⟩, 1⟩,
        ⟨"c06", "t", ⟨2025, 1, 1⟩, ⟨2025, 1, 1⟩, 1⟩,
        ⟨"c07", "t", ⟨2025, 1, 1⟩, ⟨2025, 1, 1⟩, 1⟩,
        ⟨"c08", "t", ⟨2025, 1, 1⟩, ⟨2025, 1, 1⟩, 1⟩,
        ⟨"c09", "t", ⟨2025, 1, 1⟩, ⟨2025, 1, 1⟩, 1⟩,
        ⟨"c10", "t", ⟨2025, 1, 1⟩, ⟨2025, 1, 1⟩, 1⟩,
        ⟨"c11", "t", ⟨2025, 1, 1⟩, ⟨2025, 1, 1⟩, 1⟩]).get ⟨10, by decide⟩)
      = some (palette.get ⟨10 % palette.length, Nat.mod_lt 10 (by decide)⟩)) ∧
    (svgCats [⟨"Dev", "Code", ⟨2025, 1, 1⟩, ⟨2025, 1, 2⟩, 2⟩]
        = svgCats [⟨"Dev", "Code", ⟨2025, 1, 1⟩, ⟨2025, 1, 2⟩, 2⟩] ∧
      svgCmap [⟨"Dev", "Code", ⟨2025, 1, 1⟩, ⟨2025, 1, 2⟩, 2⟩]
        = svgCmap [⟨"Dev", "Code", ⟨2025, 1, 1⟩, ⟨2025, 1, 2⟩, 2⟩]) :=
  ⟨c8_color_assignment.2.1 _ 10 (by decide),
   c8_color_assignment.2.2 [⟨some "Dev", some "Code", .instant ⟨2025, 1, 1⟩, .instant ⟨2025, 1, 2⟩⟩]
     [⟨some "Dev", some "Code", .instant ⟨2025, 1, 1⟩, .instant ⟨2025, 1, 2⟩⟩] _ _
     (List.Perm.refl _) (load_rows_singleton (by decide)) (load_rows_singleton (by decide))⟩

/-! ## C9: totality of the layout computation -/

/-- C9: the layout computation is total on every TaskSet — a zero-task
input yields the fixed placeholder markup, the day span is floored at one
day (so the bar-coordinate divisions are never by zero), every bar width
is floored at the configured minimum of 8 units, and a nonempty TaskSet
always produces a chart with one bar per task. -/
theorem c9_layout_total :
    generate_svg_geom [] = .placeholder ("<svg><text>Aucune donnée</text></svg>") ∧
    (∀ data : List Task, 1 ≤ svgDr data) ∧
    (∀ (dr : Int) (r : Task), (8 : ℚ) ≤ barWidth dr r) ∧
    (∀ data : List Task, data ≠ [] →
       generate_svg_geom data
         = .chart (svgDr data)
             (data.map (fun r => (barX (mlMargin data) (minDebut data) (svgDr data) r,
               barWidth (svgDr data) r)))) := by
  refine ⟨rfl, ?_, ?_, ?_⟩
  · intro data
    exact le_max_left 1 _
  · intro dr r
    exact le_max_left 8 _
  · intro data hne
    cases data with
    | nil => exact absurd rfl hne
    | cons t ts => rfl

/-- C9 witness: the chart clause at a concrete single-day one-task input. -/
theorem c9_layout_total_witness :
    generate_svg_geom [⟨"Dev", "Code", ⟨2025, 1, 1⟩, ⟨2025, 1, 1⟩, 1⟩]
      = .chart (svgDr [⟨"Dev", "Code", ⟨2025, 1, 1⟩, ⟨2025, 1, 1⟩, 1⟩])
          ([⟨"Dev", "Code", ⟨2025, 1, 1⟩, ⟨2025, 1, 1⟩, 1⟩].map
            (fun r => (barX (mlMargin [⟨"Dev", "Code", ⟨2025, 1, 1⟩, ⟨2025, 1, 1⟩, 1⟩])
                (minDebut [⟨"Dev", "Code", ⟨2025, 1, 1⟩, ⟨2025, 1, 1⟩, 1⟩])
                (svgDr [⟨"Dev", "Code", ⟨2025, 1, 1⟩, ⟨2025, 1, 1⟩, 1⟩]) r,
              barWidth (svgDr [⟨"Dev", "Code", ⟨2025, 1, 1⟩, ⟨2025, 1, 1⟩, 1⟩]) r))) :=
  c9_layout_total.2.2.2 [⟨"Dev", "Code", ⟨2025, 1, 1⟩, ⟨2025, 1, 1⟩, 1⟩] (by decide)

/-! ## C4: safe embedding of user text by the renderers -/

theorem escChar_safe : ∀ c : Char, (escChar c).all
    (fun x => x.toNat ≠ 60 && x.toNat ≠ 62 && x.toNat ≠ 34 && x.toNat ≠ 39) = true := by
  intro c
  unfold escChar
  split
  · decide
  split
  · decide
  split
  · decide
  split
  · decide
  split
  · decide
  rename_i h1 h2 h3 h4 h5
  simp only [List.all_cons, List.all_nil, Bool.and_true, Bool.and_eq_true,
    decide_eq_true_eq]
  omega

theorem esc_safe (s : String) : htmlSafe (esc s) = true := by
  unfold htmlSafe esc
  rw [data_mk, List.all_eq_true]
  intro x hx
  rw [List.mem_flatMap] at hx
  obtain ⟨a, -, ha⟩ := hx
  exact List.all_eq_true.mp (escChar_safe a) x ha

theorem svgUserTexts_safe : ∀ (title : String) (data : List Task),
    ∀ t ∈ svgUserTexts title data, htmlSafe t = true := by
  intro title data t ht
  unfold svgUserTexts at ht
  rcases List.mem_cons.mp ht with rfl | ht2
  · exact esc_safe title
  rcases List.mem_append.mp ht2 with h | h
  · rw [List.mem_flatMap] at h
    obtain ⟨r, -, hr⟩ := h
    rcases List.mem_cons.mp hr with rfl | hr
    · exact esc_safe _
    rcases List.mem_cons.mp hr with rfl | hr
    · exact esc_safe _
    rcases List.mem_cons.mp hr with rfl | hr
    · exact esc_safe _
    · exact absurd hr (List.not_mem_nil t)
  · rw [List.mem_map] at h
    obtain ⟨cst, -, rfl⟩ := h
    exact esc_safe cst

theorem jsLitOk_cons_plain {c : Char} {rest : List Char}
    (h34 : c.toNat ≠ 34) (h10 : c.toNat ≠ 10) (h13 : c.toNat ≠ 13) (h92 : c.toNat ≠ 92)
    (hrest : jsLitOk rest = true) : jsLitOk (c :: rest) = true := by
  cases rest with
  | nil =>
    rw [jsLitOk, if_neg h92]
    simp only [Bool.and_eq_true, decide_eq_true_eq]
    exact ⟨⟨h34, h10⟩, h13⟩
  | cons d ds =>
    rw [jsLitOk, if_neg h92]
    simp only [Bool.and_eq_true, decide_eq_true_eq]
    exact ⟨⟨⟨h34, h10⟩, h13⟩, hrest⟩

theorem hexDigit_plain : ∀ n : Nat, n < 16 →
    (hexDigit n).toNat ≠ 34 ∧ (hexDigit n).toNat ≠ 10 ∧
      (hexDigit n).toNat ≠ 13 ∧ (hexDigit n).toNat ≠ 92 := by decide

theorem uEscape_ok (v : Nat) (rest : List Char) (hrest : jsLitOk rest = true) :
    jsLitOk (uEscape v ++ rest) = true := by
  have k1 := hexDigit_plain (v / 4096 % 16) (Nat.mod_lt _ (by decide))
  have k2 := hexDigit_plain (v / 256 % 16) (Nat.mod_lt _ (by decide))
  have k3 := hexDigit_plain (v / 16 % 16) (Nat.mod_lt _ (by decide))
  have k4 := hexDigit_plain (v % 16) (Nat.mod_lt _ (by decide))
  have tail : jsLitOk (hexDigit (v / 4096 % 16) :: hexDigit (v / 256 % 16)
      :: hexDigit (v / 16 % 16) :: hexDigit (v % 16) :: rest) = true :=
    jsLitOk_cons_plain k1.1 k1.2.1 k1.2.2.1 k1.2.2.2
      (jsLitOk_cons_plain k2.1 k2.2.1 k2.2.2.1 k2.2.2.2
        (jsLitOk_cons_plain k3.1 k3.2.1 k3.2.2.1 k3.2.2.2
          (jsLitOk_cons_plain k4.1 k4.2.1 k4.2.2.1 k4.2.2.2 hrest)))
  simp only [uEscape, List.cons_append, List.nil_append]
  rw [jsLitOk, if_pos (by decide)]
  simp only [Bool.and_eq_true, decide_eq_true_eq]
  exact ⟨⟨by decide, by decide⟩, tail⟩

theorem jsonEscChar_ok (c : Char) (rest : List Char) (hrest : jsLitOk rest = true) :
    jsLitOk (jsonEscChar c ++ rest) = true := by
  unfold jsonEscChar
  by_cases hc1 : c.toNat = 34
  · rw [if_pos hc1]
    simp only [List.cons_append, List.nil_append]
    rw [jsLitOk, if_pos (by decide)]
    simp only [Bool.and_eq_true, decide_eq_true_eq]
    exact ⟨⟨by decide, by decide⟩, hrest⟩
  rw [if_neg hc1]
  by_cases hc2 : c.toNat = 92
  · rw [if_pos hc2]
    simp only [List.cons_append, List.nil_append]
    rw [jsLitOk, if_pos (by decide)]
    simp only [Bool.and_eq_true, decide_eq_true_eq]
    exact ⟨⟨by decide, by decide⟩, hrest⟩
  rw [if_neg hc2]
  by_cases hc3 : c.toNat = 8
  · rw [if_pos hc3]
    simp only [List.cons_append, List.nil_append]
    rw [jsLitOk, if_pos (by decide)]
    simp only [Bool.and_eq_true, decide_eq_true_eq]
    exact ⟨⟨by decide, by decide⟩, hrest⟩
  rw [if_neg hc3]
  by_cases hc4 : c.toNat = 9
  · rw [if_pos hc4]
    simp only [List.cons_append, List.nil_append]
    rw [jsLitOk, if_pos (by decide)]
    simp only [Bool.and_eq_true, decide_eq_true_eq]
    exact ⟨⟨by decide, by decide⟩, hrest⟩
  rw [if_neg hc4]
  by_cases hc5 : c.toNat = 10
  · rw [if_pos hc5]
    simp only [List.cons_append, List.nil_append]
    rw [jsLitOk, if_pos (by decide)]
    simp only [Bool.and_eq_true, decide_eq_true_eq]
    exact ⟨⟨by decide, by decide⟩, hrest⟩
  rw [if_neg hc5]
  by_cases hc6 : c.toNat = 12
  · rw [if_pos hc6]
    simp only [List.cons_append, List.nil_append]
    rw [jsLitOk, if_pos (by decide)]
    simp only [Bool.and_eq_true, decide_eq_true_eq]
    exact ⟨⟨by decide, by decide⟩, hrest⟩
  rw [if_neg hc6]
  by_cases hc7 : c.toNat = 13
  · rw [if_pos hc7]
    simp only [List.cons_append, List.nil_append]
    rw [jsLitOk, if_pos (by decide)]
    simp only [Bool.and_eq_true, decide_eq_true_eq]
    exact ⟨⟨by decide, by decide⟩, hrest⟩
  rw [if_neg hc7]
  by_cases hc8 : c.toNat < 32
  · rw [if_pos hc8]
    exact uEscape_ok _ _ hrest
  rw [if_neg hc8]
  by_cases hc9 : c.toNat ≤ 126
  · rw [if_pos hc9]
    exact jsLitOk_cons_plain hc1 hc5 hc7 hc2 hrest
  rw [if_neg hc9]
  by_cases hc10 : c.toNat < 65536
  · rw [if_pos hc10]
    exact uEscape_ok _ _ hrest
  rw [if_neg hc10]
  rw [List.append_assoc]
  exact uEscape_ok _ _ (uEscape_ok _ _ hrest)

theorem jsonList_ok : ∀ l : List Char, jsLitOk (l.flatMap jsonEscChar) = true
  | [] => rfl
  | c :: cs => by
    rw [List.flatMap_cons]
    exact jsonEscChar_ok c _ (jsonList_ok cs)

theorem jsonBody_ok (s : String) : jsLitOk (jsonBody s) = true := jsonList_ok s.data

theorem jsLitOk_of_plain : ∀ l : List Char,
    (∀ c ∈ l, c.toNat ≠ 34 ∧ c.toNat ≠ 92 ∧ c.toNat ≠ 10 ∧ c.toNat ≠ 13) →
    jsLitOk l = true
  | [], _ => rfl
  | c :: cs, h => by
    obtain ⟨h34, h92, h10, h13⟩ := h c (List.mem_cons_self c cs)
    exact jsLitOk_cons_plain h34 h10 h13 h92
      (jsLitOk_of_plain cs (fun x hx => h x (List.mem_cons_of_mem c hx)))

theorem pptxTaskName_ok (s : String)
    (h : ∀ c ∈ s.data, c.toNat ≠ 10 ∧ c.toNat ≠ 13) :
    jsLitOk (pptxTaskName s).data = true := by
  apply jsLitOk_of_plain
  intro c hc
  unfold pptxTaskName at hc
  rw [data_mk, List.mem_filter] at hc
  obtain ⟨hmap, hpred⟩ := hc
  rw [List.mem_map] at hmap
  obtain ⟨a, ha, rfl⟩ := hmap
  have ha2 := h a (List.mem_of_mem_take ha)
  by_cases h34 : a.toNat = 34
  · rw [if_pos h34]
    exact ⟨by decide, by decide, by decide, by decide⟩
  · rw [if_neg h34] at hpred ⊢
    exact ⟨h34, of_decide_eq_true hpred, ha2.1, ha2.2⟩

/-- C4 counterexample: a task name containing a newline passes through the
pptx sanitization unchanged (only double quotes and backslashes are
handled), so the double-quoted string literal embedding it in the
generated script is syntactically malformed. -/
theorem c4_counterexample : jsLitOk (pptxTaskName ("a\nb")).data = false := by decide

/-- C4 (amended): `generate_svg` HTML-escapes every user-supplied text
field it emits (title, task name, category, tooltip, legend labels), and
`json.dumps`-quoted embeddings (the pptx/docx titles, categories and docx
task names) are well-formed string literals for every input; the pptx
task name, however, is sanitized only by truncation, quote replacement
and backslash removal, which yields a well-formed literal only for names
free of newline characters. -/
theorem c4_renderer_escaping :
    (∀ (title : String) (data : List Task), ∀ t ∈ svgUserTexts title data,
       htmlSafe t = true) ∧
    (∀ s : String, jsLitOk (jsonBody s) = true) ∧
    (∀ s : String, (∀ c ∈ s.data, c.toNat ≠ 10 ∧ c.toNat ≠ 13) →
       jsLitOk (pptxTaskName s).data = true) :=
  ⟨svgUserTexts_safe, jsonBody_ok, pptxTaskName_ok⟩

/-- C4 witness: the three clauses at concrete inputs — an SVG title with
markup characters, a JSON-quoted string with quotes, backslashes and a
newline, and a newline-free pptx task name containing quotes and
backslashes. -/
theorem c4_renderer_escaping_witness :
    htmlSafe (esc ("<R&D> \"x\"")) = true ∧
      jsLitOk (jsonBody ("a\"b\\c\nd")) = true ∧
      jsLitOk (pptxTaskName ("He said \"hi\" \\ ok")).data = true :=
  ⟨c4_renderer_escaping.1 ("<R&D> \"x\"") [] (esc ("<R&D> \"x\"")) (by decide),
   c4_renderer_escaping.2.1 ("a\"b\\c\nd"),
   c4_renderer_escaping.2.2 ("He said \"hi\" \\ ok") (by decide)⟩

end Gantt
